import Mathlib

/-! envfunc: typed environment-variable resolvers over name-keyed registries

A shallow embedding of `src/envfunc.go`.

* Go strings are embedded as Lean `String`s.  `strconv.ParseInt` inspects a
  string byte by byte; every byte of a multi-byte UTF-8 sequence is `≥ 0x80`
  and is rejected exactly like any other non-digit, so scanning code points
  gives the same outcome.
* The three package-level maps are threaded explicitly (`Globals`); every
  operation that can touch them returns the globals it leaves behind.
* The process environment is a read-only parameter (`Environ`).
* A Go result pair `(cty.Value, error)` is the record `Ret`; `functionCall`
  is what the expression framework makes of such a pair.
* `cty.BoolVal` and `cty.NumberIntVal` are free constructors.  `cty.StringVal`
  normalises its argument (Unicode NFC) before it stores it; the
  normalisation belongs to the value library, not to this package, and is a
  parameter `norm` of everything that builds a string value.
-/

namespace envfunc

/-! ## Go substrate: maps, environment, integer conversions -/

/-- Go's builtin `map[string]V`, as a key/value list.  Built from `[]` by
`mapSet` it holds at most one entry per key. -/
abbrev GoMap (V : Type) := List (String × V)

/-- The two-result index expression `v, ok := m[k]` (`none` is `ok = false`). -/
def mapGet {V : Type} : GoMap V → String → Option V
  | [], _ => none
  | (k', v) :: rest, k => if k' = k then some v else mapGet rest k

/-- The assignment `m[k] = v`: any entry under `k` is replaced. -/
def mapSet {V : Type} (m : GoMap V) (k : String) (v : V) : GoMap V :=
  (k, v) :: m.filter (fun p => decide (p.1 ≠ k))

/-- The statement `for _, v := range m { body v }`, the body acting on a
state `σ`.  Go leaves the order unspecified; the embedding walks the list. -/
def mapRange {V σ : Type} (m : GoMap V) (body : V → σ → σ) (s : σ) : σ :=
  m.foldl (fun acc p => body p.2 acc) s

/-- The process environment: `none` for a variable that is not set. -/
abbrev Environ := String → Option String

/-- The function `os.Getenv`: the value, or `""` when the variable is not present. -/
def Getenv (env : Environ) (key : String) : String :=
  match env key with
  | some v => v
  | none => ""

/-- The conversion `int64(x)`: two's-complement wrap to 64 bits. -/
def int64 (x : Int) : Int :=
  (x + 9223372036854775808) % 18446744073709551616 - 9223372036854775808

/-- The conversion `int(x)` on a platform whose `int` is 64 bits wide. -/
def int (x : Int) : Int := int64 x

/-- The values of Go's `int` type (at most 64 bits wide on every platform). -/
def IsInt (x : Int) : Prop := -9223372036854775808 ≤ x ∧ x ≤ 9223372036854775807

instance (x : Int) : Decidable (IsInt x) := by unfold IsInt; infer_instance

/-! ## Errors and values -/

/-- The sentinel errors `strconv.ErrSyntax` and `strconv.ErrRange`. -/
inductive strconvErr
  | ErrSyntax
  | ErrRange
  deriving DecidableEq, Repr

/-- Go `error` values this package can return: the result of `fmt.Errorf`
(by its message) and `*strconv.NumError`. -/
inductive GoError
  | Errorf (msg : String)
  | NumError (Func Num : String) (Err : strconvErr)
  deriving DecidableEq, Repr

/-- The type `cty.Value`, as far as this package builds it; `NilVal` is `cty.Value{}`. -/
inductive Value
  | NilVal
  | BoolVal (b : Bool)
  | NumberIntVal (i : Int)
  | Str (s : String)
  deriving DecidableEq, Repr

/-- The constructor `cty.StringVal(v)`: the known string value that holds the
normal form of `v`.  `norm` is the library's `NormalizeString` (Unicode NFC). -/
def Value.StringVal (norm : String → String) (v : String) : Value := Value.Str (norm v)

/-- A Go result pair `(cty.Value, error)`; `err = none` is a nil error. -/
structure Ret where
  val : Value
  err : Option GoError
  deriving DecidableEq, Repr

/-! ## strconv.ParseBool and strconv.ParseInt (Go standard library) -/

def syntaxError (fn str : String) : GoError := GoError.NumError fn str strconvErr.ErrSyntax

def rangeError (fn str : String) : GoError := GoError.NumError fn str strconvErr.ErrRange

/-- The function `strconv.ParseBool`. -/
def ParseBool (str : String) : Bool × Option GoError :=
  if str = "1" ∨ str = "t" ∨ str = "T" ∨ str = "true" ∨ str = "TRUE" ∨ str = "True" then
    (true, none)
  else if str = "0" ∨ str = "f" ∨ str = "F" ∨ str = "false" ∨ str = "FALSE" ∨ str = "False" then
    (false, none)
  else
    (false, some (syntaxError "ParseBool" str))

def maxUint64 : Nat := 18446744073709551615

/-- The helper `lower(c) = c | ('x' - 'X')` of strconv. -/
def lower (c : Nat) : Nat := c ||| 32

/-- The digit `switch` in the loop of `strconv.ParseUint` (the `'_'` case needs
`base == 0` and does not arise): `none` is the `default` branch. -/
def digitOf (c : Nat) : Option Nat :=
  if 48 ≤ c ∧ c ≤ 57 then some (c - 48)
  else if 97 ≤ lower c ∧ lower c ≤ 122 then some (lower c - 97 + 10)
  else none

/-- The loop of `strconv.ParseUint` for `base = 10`, `bitSize = 64`, over
the remaining input with accumulator `n`; `uint64` arithmetic wraps. -/
def ParseUint.loop (s0 : String) (cutoff maxVal : Nat) : List Char → Nat → Nat × Option GoError
  | [], n => (n, none)
  | c :: rest, n =>
    match digitOf c.toNat with
    | none => (0, some (syntaxError "ParseUint" s0))
    | some d =>
      if d ≥ 10 then (0, some (syntaxError "ParseUint" s0))
      else if n ≥ cutoff then (maxVal, some (rangeError "ParseUint" s0))
      else
        let n' := n * 10 % 18446744073709551616
        let n1 := (n' + d) % 18446744073709551616
        if n1 < n' ∨ n1 > maxVal then (maxVal, some (rangeError "ParseUint" s0))
        else ParseUint.loop s0 cutoff maxVal rest n1

/-- The call `strconv.ParseUint(s, 10, 64)`. -/
def ParseUint (s : String) : Nat × Option GoError :=
  if s = "" then (0, some (syntaxError "ParseUint" s))
  else
    let cutoff := maxUint64 / 10 + 1
    let maxVal := maxUint64
    ParseUint.loop s cutoff maxVal s.data 0

/-- The call `strconv.ParseInt(s, 10, 64)`.  `s.data.head?` is `s[0]` and
`String.mk s.data.tail` is `s[1:]`. -/
def ParseInt (s : String) : Int × Option GoError :=
  if s = "" then (0, some (syntaxError "ParseInt" s))
  else
    let s0 := s
    let split : String × Bool :=
      if s.data.head? = some '+' then (String.mk s.data.tail, false)
      else if s.data.head? = some '-' then (String.mk s.data.tail, true)
      else (s, false)
    let s := split.1
    let neg := split.2
    let r := ParseUint s
    let un := r.1
    match r.2 with
    | some (GoError.NumError _ _ strconvErr.ErrSyntax) => (0, some (syntaxError "ParseInt" s0))
    | _ =>
      let cutoff : Nat := 9223372036854775808
      if neg = false ∧ un ≥ cutoff then
        (((cutoff - 1 : Nat) : Int), some (rangeError "ParseInt" s0))
      else if neg = true ∧ un > cutoff then
        (-(cutoff : Int), some (rangeError "ParseInt" s0))
      else
        let n := int64 (un : Int)
        let n := if neg then int64 (-n) else n
        (n, none)

/-! ## The package: records, registries, registration, iteration -/

structure boolEnv where
  name : String
  desc : String
  d : Bool
  v : Bool
  deriving DecidableEq, Repr

structure intEnv where
  name : String
  desc : String
  d : Int
  v : Int
  deriving DecidableEq, Repr

structure stringEnv where
  name : String
  desc : String
  d : String
  v : String
  deriving DecidableEq, Repr

/-- The package-level variables `boolEnvs`, `stringEnvs`, `intEnvs`. -/
structure Globals where
  boolEnvs : GoMap boolEnv
  stringEnvs : GoMap stringEnv
  intEnvs : GoMap intEnv
  deriving DecidableEq, Repr

/-- The package state after initialisation: three empty maps. -/
def Globals.init : Globals := { boolEnvs := [], stringEnvs := [], intEnvs := [] }

def RegisterIntEnv (g : Globals) (name desc : String) (d : Int) : Globals :=
  { g with intEnvs := mapSet g.intEnvs name { name := name, desc := desc, d := d, v := 0 } }

def RangeIntEnv {σ : Type} (g : Globals) (fn : String → String → Int → σ → σ) (s : σ) : σ :=
  mapRange g.intEnvs (fun v => fn v.name v.desc v.d) s

def RegisterStringEnv (g : Globals) (name desc d : String) : Globals :=
  { g with stringEnvs := mapSet g.stringEnvs name { name := name, desc := desc, d := d, v := "" } }

def RangeStringEnv {σ : Type} (g : Globals) (fn : String → String → String → σ → σ) (s : σ) : σ :=
  mapRange g.stringEnvs (fun v => fn v.name v.desc v.d) s

def RegisterBoolEnv (g : Globals) (name desc : String) (d : Bool) : Globals :=
  { g with boolEnvs := mapSet g.boolEnvs name { name := name, desc := desc, d := d, v := false } }

def RangeBoolEnv {σ : Type} (g : Globals) (fn : String → String → Bool → σ → σ) (s : σ) : σ :=
  mapRange g.boolEnvs (fun v => fn v.name v.desc v.d) s

/-! ## The resolvers -/

/-- The message of `fmt.Errorf("env: %s does not register", e)`. -/
def notRegisteredMsg (e : String) : String := "env: " ++ e ++ " does not register"

/-- The `Impl` of `EnvBoolFunc`, `e` being `args[0].AsString()`.  The record
`s` is a copy of the map entry: assignments to `s.v` change the copy, and
nothing is stored back into `boolEnvs`. -/
def EnvBoolFunc.Impl (g : Globals) (env : Environ) (e : String) : Ret × Globals :=
  match mapGet g.boolEnvs e with
  | none => (⟨Value.NilVal, some (GoError.Errorf (notRegisteredMsg e))⟩, g)
  | some s =>
    let v := Getenv env e
    if v = "" then
      let s : boolEnv := { s with v := s.d }
      (⟨Value.BoolVal s.d, none⟩, g)
    else
      let r := ParseBool v
      let s : boolEnv := { s with v := r.1 }
      let err := r.2
      let s : boolEnv := if err ≠ none then { s with v := s.d } else s
      (⟨Value.BoolVal s.v, none⟩, g)

/-- The `Impl` of `EnvIntFunc`.  The value and the error of `ParseInt` are
returned together; `s.v = int(i)` changes the local copy only. -/
def EnvIntFunc.Impl (g : Globals) (env : Environ) (e : String) : Ret × Globals :=
  match mapGet g.intEnvs e with
  | none => (⟨Value.NilVal, some (GoError.Errorf (notRegisteredMsg e))⟩, g)
  | some s =>
    let v := Getenv env e
    if v = "" then
      let s : intEnv := { s with v := s.d }
      (⟨Value.NumberIntVal (int64 s.d), none⟩, g)
    else
      let r := ParseInt v
      let i := r.1
      let err := r.2
      let _s : intEnv := { s with v := int i }
      (⟨Value.NumberIntVal i, err⟩, g)

/-- The `Impl` of `EnvStringFunc`; `norm` is the normalisation inside
`cty.StringVal`. -/
def EnvStringFunc.Impl (norm : String → String) (g : Globals) (env : Environ) (e : String) :
    Ret × Globals :=
  match mapGet g.stringEnvs e with
  | none => (⟨Value.NilVal, some (GoError.Errorf (notRegisteredMsg e))⟩, g)
  | some s =>
    let v := Getenv env e
    let v := if v = "" then s.d else v
    let _s : stringEnv := { s with v := v }
    (⟨Value.StringVal norm v, none⟩, g)

/-- What a call of a `function.Function` yields from the pair its `Impl`
returned: a non-nil error is the outcome and the value beside it is dropped. -/
def functionCall (r : Ret × Globals) : Except GoError Value × Globals :=
  match r.1.err with
  | some err => (Except.error err, r.2)
  | none => (Except.ok r.1.val, r.2)

/-- Calling `EnvBoolFunc` with the known string `e`. -/
def EnvBoolFunc.Call (g : Globals) (env : Environ) (e : String) : Except GoError Value × Globals :=
  functionCall (EnvBoolFunc.Impl g env e)

/-- Calling `EnvIntFunc` with the known string `e`. -/
def EnvIntFunc.Call (g : Globals) (env : Environ) (e : String) : Except GoError Value × Globals :=
  functionCall (EnvIntFunc.Impl g env e)

/-- Calling `EnvStringFunc` with the known string `e`. -/
def EnvStringFunc.Call (norm : String → String) (g : Globals) (env : Environ) (e : String) :
    Except GoError Value × Globals :=
  functionCall (EnvStringFunc.Impl norm g env e)

/-! ## Specification-side vocabulary -/

/-- Two package states register the same names with the same name,
description and default in every record, entry by entry, in all three
registries (the `v` fields are left out of the comparison). -/
def sameRegistrations (g g' : Globals) : Prop :=
  g'.boolEnvs.map (fun p => (p.1, p.2.name, p.2.desc, p.2.d))
      = g.boolEnvs.map (fun p => (p.1, p.2.name, p.2.desc, p.2.d)) ∧
  g'.stringEnvs.map (fun p => (p.1, p.2.name, p.2.desc, p.2.d))
      = g.stringEnvs.map (fun p => (p.1, p.2.name, p.2.desc, p.2.d)) ∧
  g'.intEnvs.map (fun p => (p.1, p.2.name, p.2.desc, p.2.d))
      = g.intEnvs.map (fun p => (p.1, p.2.name, p.2.desc, p.2.d))

/-- The values of Go's `int64` type. -/
def IsInt64 (x : Int) : Prop := -9223372036854775808 ≤ x ∧ x ≤ 9223372036854775807

instance (x : Int) : Decidable (IsInt64 x) := by unfold IsInt64; infer_instance

/-- An optional sign: nothing, `+` or `-`. -/
def IsSign (sign : List Char) : Prop := sign = [] ∨ sign = ['+'] ∨ sign = ['-']

instance (sign : List Char) : Decidable (IsSign sign) := by unfold IsSign; infer_instance

/-- A decimal digit, `'0'` to `'9'`. -/
def IsDigit (c : Char) : Prop := 48 ≤ c.toNat ∧ c.toNat ≤ 57

instance (c : Char) : Decidable (IsDigit c) := by unfold IsDigit; infer_instance

/-- One or more decimal digits. -/
def IsDigits (ds : List Char) : Prop := ds ≠ [] ∧ ∀ c ∈ ds, IsDigit c

instance (ds : List Char) : Decidable (IsDigits ds) := by unfold IsDigits; infer_instance

/-- The number a digit string denotes in positional notation, most
significant digit first. -/
def decimalValue : List Char → Nat
  | [] => 0
  | c :: rest => (c.toNat - 48) * 10 ^ rest.length + decimalValue rest

/-- The integer denoted by a sign and a digit string. -/
def literalValue (sign ds : List Char) : Int :=
  if sign = ['-'] then -(decimalValue ds : Int) else (decimalValue ds : Int)

/-- The string is a base-10 integer literal: an optional sign followed by
one or more decimal digits. -/
def IsDecimalLiteral (v : String) : Prop :=
  ∃ sign ds, v.data = sign ++ ds ∧ IsSign sign ∧ IsDigits ds

/-- One call of a register function, with its arguments. -/
inductive RegCall
  | regBool (name desc : String) (d : Bool)
  | regInt (name desc : String) (d : Int)
  | regString (name desc d : String)
  deriving DecidableEq, Repr

/-- Performing one register call. -/
def RegCall.run (g : Globals) : RegCall → Globals
  | RegCall.regBool name desc d => RegisterBoolEnv g name desc d
  | RegCall.regInt name desc d => RegisterIntEnv g name desc d
  | RegCall.regString name desc d => RegisterStringEnv g name desc d

/-- The package state reached from the freshly initialised package by a
sequence of register calls, performed in order. -/
def runCalls (calls : List RegCall) : Globals := calls.foldl RegCall.run Globals.init

/-- The `RegisterBoolEnv` calls of a sequence, in order, as `(name, desc, d)`. -/
def boolCalls (calls : List RegCall) : List (String × String × Bool) :=
  calls.filterMap fun c =>
    match c with
    | RegCall.regBool name desc d => some (name, desc, d)
    | _ => none

/-- The `RegisterIntEnv` calls of a sequence, in order, as `(name, desc, d)`. -/
def intCalls (calls : List RegCall) : List (String × String × Int) :=
  calls.filterMap fun c =>
    match c with
    | RegCall.regInt name desc d => some (name, desc, d)
    | _ => none

/-- The `RegisterStringEnv` calls of a sequence, in order, as `(name, desc, d)`. -/
def stringCalls (calls : List RegCall) : List (String × String × String) :=
  calls.filterMap fun c =>
    match c with
    | RegCall.regString name desc d => some (name, desc, d)
    | _ => none

/-- A visitor that appends the arguments of each invocation to a log. -/
def recordVisit {D : Type} (name desc : String) (d : D) (log : List (String × String × D)) :
    List (String × String × D) :=
  log ++ [(name, desc, d)]

/-- What iteration owes to a history `ops` of register calls of one type:
the visitor is invoked as many times as `ops` has distinct names, no name is
visited twice, every registered name is visited, and each invocation carries
the arguments of the last call in `ops` for its name. -/
def VisitsMatchHistory {D : Type} (ops visits : List (String × String × D)) : Prop :=
  visits.length = (ops.map (fun o => o.1)).dedup.length ∧
  (visits.map (fun x => x.1)).Nodup ∧
  (∀ o ∈ ops, o.1 ∈ visits.map (fun x => x.1)) ∧
  ∀ x ∈ visits, (ops.filter (fun o => decide (o.1 = x.1))).getLast? = some x

/-- The calls of the iteration scenario: two names registered as ints, the
first of them twice, and one name registered as a string in between. -/
def callsExample : List RegCall :=
  [RegCall.regInt "RETRY_COUNT" "retries" 3,
   RegCall.regString "LOG_LEVEL" "verbosity" "info",
   RegCall.regInt "TIMEOUT" "seconds" 30,
   RegCall.regInt "RETRY_COUNT" "retries, second thoughts" 5]

/-- A resolver call failed. -/
def Failed (r : Except GoError Value × Globals) : Prop := ∃ err, r.1 = Except.error err

/-! ## Concrete scenarios -/

/-- A fragment of Unicode NFC on character lists: the letter `e` followed by
the combining acute accent U+0301 (769) is composed to U+00E9 (233), and
every other character is kept. -/
def composeSample : List Char → List Char
  | [] => []
  | [c] => [c]
  | c :: d :: rest =>
    if c = 'e' ∧ d = Char.ofNat 769 then Char.ofNat 233 :: composeSample rest
    else c :: composeSample (d :: rest)

/-- A stand-in for the normalisation inside `cty.StringVal` in the concrete
scenarios.  It agrees with NFC on ASCII text, and on ASCII text into which
U+0301 has been inserted after occurrences of `e` only, at most once each. -/
def nfcSample (s : String) : String := String.mk (composeSample s.data)

/-- The two-character string `e`, U+0301: an `e` with a combining acute accent. -/
def eCombiningAcute : String := String.mk ['e', Char.ofNat 769]

/-- The one-character string U+00E9: the precomposed `e` with acute accent. -/
def ePrecomposed : String := String.mk [Char.ofNat 233]

/-- An environment in which no variable is set. -/
def envUnset : Environ := fun _ => none

/-- An environment in which exactly the variable `k` is set, to `v`. -/
def envSingle (k v : String) : Environ := fun x => if x = k then some v else none

/-- The package state after `RegisterBoolEnv("FEATURE_X", "feature switch", d)`. -/
def gFeature (d : Bool) : Globals := RegisterBoolEnv Globals.init "FEATURE_X" "feature switch" d

/-- The package state after `RegisterIntEnv("RETRY_COUNT", "retries", 3)`. -/
def gRetry : Globals := RegisterIntEnv Globals.init "RETRY_COUNT" "retries" 3

/-- The package state after `RegisterStringEnv("LOG_LEVEL", "verbosity", "info")`. -/
def gLog : Globals := RegisterStringEnv Globals.init "LOG_LEVEL" "verbosity" "info"

/-! ## Lemmas on maps -/

theorem mapGet_filter_ne {V : Type} (m : GoMap V) (k k' : String) (h : k' ≠ k) :
    mapGet (m.filter (fun p => decide (p.1 ≠ k))) k' = mapGet m k' := by
  induction m with
  | nil => rfl
  | cons p rest ih =>
    obtain ⟨a, b⟩ := p
    by_cases hak : a = k
    · have hak' : ¬ a = k' := fun h' => h (h' ▸ hak)
      rw [List.filter_cons_of_neg (by simp [hak]), ih]
      simp only [mapGet, if_neg hak']
    · rw [List.filter_cons_of_pos (by simp [hak])]
      simp only [mapGet, ih]

theorem mapGet_mapSet_self {V : Type} (m : GoMap V) (k : String) (v : V) :
    mapGet (mapSet m k v) k = some v := by
  simp [mapSet, mapGet]

theorem mapGet_mapSet_ne {V : Type} (m : GoMap V) (k k' : String) (v : V) (h : k' ≠ k) :
    mapGet (mapSet m k v) k' = mapGet m k' := by
  have hk : ¬ k = k' := fun h' => h h'.symm
  simp only [mapSet, mapGet, if_neg hk]
  exact mapGet_filter_ne m k k' h

theorem filter_key_mapSet {V : Type} (m : GoMap V) (k : String) (v : V) :
    (mapSet m k v).filter (fun p => decide (p.1 = k)) = [(k, v)] := by
  simp [mapSet, List.filter_cons, List.filter_filter]

/-! ## Lemmas on strconv.ParseUint and strconv.ParseInt -/

theorem digitOf_of_IsDigit (c : Char) (h : IsDigit c) :
    digitOf c.toNat = some (c.toNat - 48) ∧ c.toNat - 48 < 10 := by
  unfold IsDigit at h
  unfold digitOf
  rw [if_pos h]
  exact ⟨rfl, by omega⟩

theorem digitOf_lt_ten (x d : Nat) (h : digitOf x = some d) (hd : d < 10) :
    48 ≤ x ∧ x ≤ 57 := by
  unfold digitOf at h
  by_cases h1 : 48 ≤ x ∧ x ≤ 57
  · exact h1
  · rw [if_neg h1] at h
    by_cases h2 : 97 ≤ lower x ∧ lower x ≤ 122
    · rw [if_pos h2] at h
      injection h with h
      omega
    · rw [if_neg h2] at h
      cases h

theorem loop_digits (s0 : String) (ds : List Char) :
    ∀ n : Nat, (∀ c ∈ ds, IsDigit c) → n ≤ maxUint64 →
      ParseUint.loop s0 (maxUint64 / 10 + 1) maxUint64 ds n =
        if n * 10 ^ ds.length + decimalValue ds ≤ maxUint64 then
          (n * 10 ^ ds.length + decimalValue ds, none)
        else (maxUint64, some (rangeError "ParseUint" s0)) := by
  induction ds with
  | nil =>
    intro n _ hn
    simp [ParseUint.loop, decimalValue, hn]
  | cons c rest ih =>
    intro n hds hn
    have hc : IsDigit c := hds c (List.mem_cons_self _ _)
    have hrest : ∀ x ∈ rest, IsDigit x := fun x hx => hds x (List.mem_cons_of_mem _ hx)
    obtain ⟨hdig, hlt⟩ := digitOf_of_IsDigit c hc
    have hP : 1 ≤ 10 ^ rest.length := Nat.one_le_pow _ _ (by norm_num)
    have htot : n * 10 ^ (c :: rest).length + decimalValue (c :: rest)
        = (n * 10 + (c.toNat - 48)) * 10 ^ rest.length + decimalValue rest := by
      simp only [List.length_cons, decimalValue, pow_succ]
      ring
    have hge : n * 10 + (c.toNat - 48) ≤ (n * 10 + (c.toNat - 48)) * 10 ^ rest.length :=
      Nat.le_mul_of_pos_right _ hP
    rw [htot]
    unfold ParseUint.loop
    simp only [hdig]
    generalize c.toNat - 48 = d at hlt hge ⊢
    generalize hX : (n * 10 + d) * 10 ^ rest.length = X at hge ⊢
    have hnot : ¬ d ≥ 10 := by omega
    rw [if_neg hnot]
    unfold maxUint64 at hn ⊢
    by_cases hcut : n ≥ 18446744073709551615 / 10 + 1
    · rw [if_pos hcut, if_neg (by omega)]
    · rw [if_neg hcut]
      by_cases hov : n * 10 + d ≤ 18446744073709551615
      · have h1 : n * 10 % 18446744073709551616 = n * 10 := by omega
        have h2 : (n * 10 + d) % 18446744073709551616 = n * 10 + d := by omega
        simp only [h1, h2]
        rw [if_neg (by omega)]
        have := ih (n * 10 + d) hrest (by unfold maxUint64; omega)
        unfold maxUint64 at this
        rw [this, hX]
      · rw [if_pos (by omega), if_neg (by omega)]

theorem loop_ok_digits (s0 : String) (cutoff maxVal : Nat) (ds : List Char) :
    ∀ n : Nat, (ParseUint.loop s0 cutoff maxVal ds n).2 = none → ∀ c ∈ ds, IsDigit c := by
  induction ds with
  | nil => intro n _ c hc; cases hc
  | cons c rest ih =>
    intro n h
    unfold ParseUint.loop at h
    cases hdig : digitOf c.toNat with
    | none => simp [hdig] at h
    | some d =>
      simp only [hdig] at h
      by_cases hd : d ≥ 10
      · simp [hd] at h
      · rw [if_neg hd] at h
        by_cases hcut : n ≥ cutoff
        · simp [hcut] at h
        · rw [if_neg hcut] at h
          split at h
          · simp at h
          · intro x hx
            rcases List.mem_cons.mp hx with hx | hx
            · subst hx
              exact digitOf_lt_ten _ d hdig (by omega)
            · exact ih _ h x hx

theorem String_ne_empty_iff (s : String) : s ≠ "" ↔ s.data ≠ [] := by
  rw [Ne, String.ext_iff]

theorem ParseUint_digits (ds : List Char) (h : IsDigits ds) :
    ParseUint (String.mk ds) =
      if decimalValue ds ≤ maxUint64 then (decimalValue ds, none)
      else (maxUint64, some (rangeError "ParseUint" (String.mk ds))) := by
  have hne : String.mk ds ≠ "" := (String_ne_empty_iff _).mpr h.1
  unfold ParseUint
  rw [if_neg hne]
  have := loop_digits (String.mk ds) ds 0 h.2 (Nat.zero_le _)
  simpa using this

theorem ParseUint_ok (s : String) (h : (ParseUint s).2 = none) : IsDigits s.data := by
  unfold ParseUint at h
  by_cases hs : s = ""
  · simp [hs] at h
  · rw [if_neg hs] at h
    exact ⟨(String_ne_empty_iff s).mp hs, loop_ok_digits _ _ _ _ _ h⟩

theorem ParseInt_split (v : String) (sign ds : List Char)
    (hv : v.data = sign ++ ds) (hs : IsSign sign) (hd : IsDigits ds) :
    v ≠ "" ∧
    (if v.data.head? = some '+' then (String.mk v.data.tail, false)
      else if v.data.head? = some '-' then (String.mk v.data.tail, true)
      else (v, false)) = (String.mk ds, decide (sign = ['-'])) := by
  obtain ⟨hne, hall⟩ := hd
  obtain ⟨data⟩ := v
  simp only at hv
  subst hv
  rcases hs with h | h | h
  · subst h
    cases ds with
    | nil => exact absurd rfl hne
    | cons c rest =>
      have hc : IsDigit c := hall c (List.mem_cons_self _ _)
      unfold IsDigit at hc
      have h1 : c ≠ '+' := by
        intro h; subst h; revert hc; decide
      have h2 : c ≠ '-' := by
        intro h; subst h; revert hc; decide
      refine ⟨(String_ne_empty_iff _).mpr (by simp), ?_⟩
      simp [h1, h2]
  · subst h
    refine ⟨(String_ne_empty_iff _).mpr (by simp), ?_⟩
    simp
  · subst h
    refine ⟨(String_ne_empty_iff _).mpr (by simp), ?_⟩
    simp

theorem ParseInt_literal (v : String) (sign ds : List Char)
    (hv : v.data = sign ++ ds) (hs : IsSign sign) (hd : IsDigits ds) :
    ParseInt v =
      if IsInt64 (literalValue sign ds) then (literalValue sign ds, none)
      else (if sign = ['-'] then -9223372036854775808 else 9223372036854775807,
            some (rangeError "ParseInt" v)) := by
  obtain ⟨hne, hsplit⟩ := ParseInt_split v sign ds hv hs hd
  unfold ParseInt
  rw [if_neg hne]
  simp only [hsplit, ParseUint_digits ds hd]
  unfold IsInt64 literalValue maxUint64
  generalize decimalValue ds = V
  have hcast : ((9223372036854775808 : Nat) : Int) = 9223372036854775808 := by norm_num
  have hcast' : (((9223372036854775808 - 1 : Nat)) : Int) = 9223372036854775807 := by norm_num
  have hft : ¬ (false = true) := by decide
  have htf : ¬ (true = false) := by decide
  by_cases hV : V ≤ 18446744073709551615
  · rw [if_pos hV]
    by_cases hneg : sign = ['-']
    · simp only [hneg, decide_True, if_true]
      rw [if_neg (fun h => htf h.1)]
      by_cases h1 : V > 9223372036854775808
      · rw [if_pos ⟨trivial, h1⟩, if_neg (by omega), hcast]
      · rw [if_neg (fun h => h1 h.2), if_pos (by omega)]
        have e : int64 (-int64 (V : Int)) = -(V : Int) := by unfold int64; omega
        rw [e]
    · simp only [hneg, decide_False, if_false]
      by_cases h1 : V ≥ 9223372036854775808
      · rw [if_pos ⟨trivial, h1⟩, if_neg (by omega), hcast']
      · rw [if_neg (fun h => h1 h.2), if_neg (fun h => hft h.1), if_neg hft, if_pos (by omega)]
        have e : int64 (V : Int) = (V : Int) := by unfold int64; omega
        rw [e]
  · rw [if_neg hV]
    simp only [rangeError]
    by_cases hneg : sign = ['-']
    · simp only [hneg, decide_True, if_true]
      rw [if_neg (fun h => htf h.1), if_pos ⟨trivial, by norm_num⟩, if_neg (by omega), hcast]
    · simp only [hneg, decide_False, if_false]
      rw [if_pos ⟨trivial, by norm_num⟩, if_neg (by omega), hcast']

theorem loop_err_cases (s0 : String) (cutoff maxVal : Nat) (ds : List Char) :
    ∀ n : Nat,
      (ParseUint.loop s0 cutoff maxVal ds n).2 = none ∨
      (ParseUint.loop s0 cutoff maxVal ds n).2 = some (syntaxError "ParseUint" s0) ∨
      ((ParseUint.loop s0 cutoff maxVal ds n).2 = some (rangeError "ParseUint" s0) ∧
        (ParseUint.loop s0 cutoff maxVal ds n).1 = maxVal) := by
  induction ds with
  | nil => intro n; left; rfl
  | cons c rest ih =>
    intro n
    unfold ParseUint.loop
    cases hdig : digitOf c.toNat with
    | none => right; left; rfl
    | some d =>
      simp only []
      by_cases hd : d ≥ 10
      · rw [if_pos hd]; right; left; rfl
      · rw [if_neg hd]
        by_cases hcut : n ≥ cutoff
        · rw [if_pos hcut]; right; right; exact ⟨rfl, rfl⟩
        · rw [if_neg hcut]
          split
          · right; right; exact ⟨rfl, rfl⟩
          · exact ih _

theorem ParseUint_err_cases (s : String) :
    (ParseUint s).2 = none ∨
    (ParseUint s).2 = some (syntaxError "ParseUint" s) ∨
    ((ParseUint s).2 = some (rangeError "ParseUint" s) ∧ (ParseUint s).1 = maxUint64) := by
  unfold ParseUint
  by_cases hs : s = ""
  · rw [if_pos hs]; right; left; rfl
  · rw [if_neg hs]
    exact loop_err_cases _ _ _ _ _

theorem ParseInt_ok (v : String) (h : (ParseInt v).2 = none) : IsDecimalLiteral v := by
  unfold ParseInt at h
  by_cases hv : v = ""
  · rw [if_pos hv] at h; cases h
  · rw [if_neg hv] at h
    have key : ∀ (s1 : String) (neg : Bool) (sign : List Char), IsSign sign →
        v.data = sign ++ s1.data →
        (match (ParseUint s1).2 with
          | some (GoError.NumError _ _ strconvErr.ErrSyntax) =>
            ((0 : Int), some (syntaxError "ParseInt" v))
          | _ =>
            if neg = false ∧ (ParseUint s1).1 ≥ 9223372036854775808 then
              (((9223372036854775808 - 1 : Nat) : Int), some (rangeError "ParseInt" v))
            else if neg = true ∧ (ParseUint s1).1 > 9223372036854775808 then
              (-((9223372036854775808 : Nat) : Int), some (rangeError "ParseInt" v))
            else
              (if neg = true then int64 (-int64 ((ParseUint s1).1 : Int))
                else int64 ((ParseUint s1).1 : Int), none)).2 = none →
        IsDecimalLiteral v := by
      intro s1 neg sign hsign hdata hres
      rcases ParseUint_err_cases s1 with h0 | h0 | ⟨h0, h1⟩
      · exact ⟨sign, s1.data, hdata, hsign, ParseUint_ok s1 h0⟩
      · rw [h0] at hres
        simp [syntaxError] at hres
      · rw [h0, h1] at hres
        unfold maxUint64 at hres
        cases neg <;> simp [rangeError] at hres
    by_cases hp : v.data.head? = some '+'
    · rw [if_pos hp] at h
      refine key (String.mk v.data.tail) false ['+'] (Or.inr (Or.inl rfl)) ?_ h
      cases hd : v.data with
      | nil => rw [hd] at hp; cases hp
      | cons c rest =>
        rw [hd] at hp
        simp at hp
        simp [hp]
    · rw [if_neg hp] at h
      by_cases hm : v.data.head? = some '-'
      · rw [if_pos hm] at h
        refine key (String.mk v.data.tail) true ['-'] (Or.inr (Or.inr rfl)) ?_ h
        cases hd : v.data with
        | nil => rw [hd] at hm; cases hm
        | cons c rest =>
          rw [hd] at hm
          simp at hm
          simp [hm]
      · rw [if_neg hm] at h
        exact key v false [] (Or.inl rfl) rfl h

/-! ## Resolution: booleans and strings -/

/-- C1. For a name registered in the bool registry with record `s` (default
`s.d`), calling the boolean resolver succeeds in every case: it yields the
default when the variable is unset or empty, `true` on the six true
spellings, `false` on the six false spellings, and the default again on
every other non-empty string. -/
theorem EnvBoolFunc_resolves (g : Globals) (env : Environ) (n : String) (s : boolEnv)
    (hreg : mapGet g.boolEnvs n = some s) :
    ((env n = none ∨ env n = some "") →
        (EnvBoolFunc.Call g env n).1 = Except.ok (Value.BoolVal s.d)) ∧
    (∀ v, env n = some v → v ∈ ["1", "t", "T", "TRUE", "true", "True"] →
        (EnvBoolFunc.Call g env n).1 = Except.ok (Value.BoolVal true)) ∧
    (∀ v, env n = some v → v ∈ ["0", "f", "F", "FALSE", "false", "False"] →
        (EnvBoolFunc.Call g env n).1 = Except.ok (Value.BoolVal false)) ∧
    (∀ v, env n = some v → v ≠ "" →
        v ∉ ["1", "t", "T", "TRUE", "true", "True"] →
        v ∉ ["0", "f", "F", "FALSE", "false", "False"] →
        (EnvBoolFunc.Call g env n).1 = Except.ok (Value.BoolVal s.d)) := by
  refine ⟨?_, ?_, ?_, ?_⟩
  · intro h
    have hv : Getenv env n = "" := by
      rcases h with h | h <;> simp [Getenv, h]
    simp [EnvBoolFunc.Call, EnvBoolFunc.Impl, functionCall, hreg, hv]
  · intro v hv hmem
    have hg : Getenv env n = v := by simp [Getenv, hv]
    simp only [List.mem_cons, List.mem_singleton, List.not_mem_nil, or_false] at hmem
    rcases hmem with h | h | h | h | h | h <;> subst h <;>
      simp [EnvBoolFunc.Call, EnvBoolFunc.Impl, functionCall, hreg, hg, ParseBool]
  · intro v hv hmem
    have hg : Getenv env n = v := by simp [Getenv, hv]
    simp only [List.mem_cons, List.mem_singleton, List.not_mem_nil, or_false] at hmem
    rcases hmem with h | h | h | h | h | h <;> subst h <;>
      simp [EnvBoolFunc.Call, EnvBoolFunc.Impl, functionCall, hreg, hg, ParseBool]
  · intro v hv hne ht hf
    have hg : Getenv env n = v := by simp [Getenv, hv]
    simp only [List.mem_cons, List.mem_singleton, List.not_mem_nil, or_false] at ht hf
    have ht' : ¬ (v = "1" ∨ v = "t" ∨ v = "T" ∨ v = "true" ∨ v = "TRUE" ∨ v = "True") := by
      tauto
    have hf' : ¬ (v = "0" ∨ v = "f" ∨ v = "F" ∨ v = "false" ∨ v = "FALSE" ∨ v = "False") := by
      tauto
    simp only [EnvBoolFunc.Call, EnvBoolFunc.Impl, functionCall, hreg, hg, ParseBool, if_neg hne,
      if_neg ht', if_neg hf']
    simp

/-- C1, at `FEATURE_X` registered with default `false` and the variable set
to `"maybe"`: the call succeeds with the default. -/
theorem EnvBoolFunc_resolves_witness :
    mapGet (gFeature false).boolEnvs "FEATURE_X"
        = some { name := "FEATURE_X", desc := "feature switch", d := false, v := false } ∧
    (EnvBoolFunc.Call (gFeature false) (envSingle "FEATURE_X" "maybe") "FEATURE_X").1
        = Except.ok (Value.BoolVal false) :=
  ⟨by decide,
   (EnvBoolFunc_resolves (gFeature false) (envSingle "FEATURE_X" "maybe") "FEATURE_X"
      { name := "FEATURE_X", desc := "feature switch", d := false, v := false }
      (by decide)).2.2.2 "maybe" (by decide) (by decide) (by decide) (by decide)⟩

/-- C3 as stated fails on the code: `LOG_LEVEL` is registered, the variable
holds `e` followed by the combining accent U+0301 (a non-empty string), and
the call returns the one-character string U+00E9, not the environment string
itself. -/
theorem EnvStringFunc_not_verbatim :
    mapGet gLog.stringEnvs "LOG_LEVEL"
        = some { name := "LOG_LEVEL", desc := "verbosity", d := "info", v := "" } ∧
    eCombiningAcute ≠ "" ∧
    (EnvStringFunc.Call nfcSample gLog (envSingle "LOG_LEVEL" eCombiningAcute) "LOG_LEVEL").1
        = Except.ok (Value.Str ePrecomposed) ∧
    (EnvStringFunc.Call nfcSample gLog (envSingle "LOG_LEVEL" eCombiningAcute) "LOG_LEVEL").1
        ≠ Except.ok (Value.Str eCombiningAcute) := by
  have hcall :
      (EnvStringFunc.Call nfcSample gLog (envSingle "LOG_LEVEL" eCombiningAcute) "LOG_LEVEL").1
        = Except.ok (Value.Str ePrecomposed) := rfl
  refine ⟨by decide, by decide, hcall, ?_⟩
  rw [hcall]
  intro h
  have hv : Value.Str ePrecomposed = Value.Str eCombiningAcute := Except.ok.inj h
  revert hv
  decide

/-- C3, amended. For a name registered in the string registry with record
`s`, the string resolver never fails. It returns `cty.StringVal` of the
default when the variable is unset or empty and `cty.StringVal` of the
environment string for every non-empty value, that is, the string in the
normal form the value library gives it. Whenever that string is already in
normal form, the value returned holds the string itself, unmodified. -/
theorem EnvStringFunc_resolves_normalised (norm : String → String) (g : Globals)
    (env : Environ) (n : String) (s : stringEnv)
    (hreg : mapGet g.stringEnvs n = some s) :
    (∃ val, (EnvStringFunc.Call norm g env n).1 = Except.ok val) ∧
    ((env n = none ∨ env n = some "") →
        (EnvStringFunc.Call norm g env n).1 = Except.ok (Value.StringVal norm s.d)) ∧
    (∀ v, env n = some v → v ≠ "" →
        (EnvStringFunc.Call norm g env n).1 = Except.ok (Value.StringVal norm v)) ∧
    ((env n = none ∨ env n = some "") → norm s.d = s.d →
        (EnvStringFunc.Call norm g env n).1 = Except.ok (Value.Str s.d)) ∧
    (∀ v, env n = some v → v ≠ "" → norm v = v →
        (EnvStringFunc.Call norm g env n).1 = Except.ok (Value.Str v)) := by
  have hunset : (env n = none ∨ env n = some "") →
      (EnvStringFunc.Call norm g env n).1 = Except.ok (Value.StringVal norm s.d) := by
    intro h
    have hv : Getenv env n = "" := by
      rcases h with h | h <;> simp [Getenv, h]
    simp [EnvStringFunc.Call, EnvStringFunc.Impl, functionCall, hreg, hv]
  have hset : ∀ v, env n = some v → v ≠ "" →
      (EnvStringFunc.Call norm g env n).1 = Except.ok (Value.StringVal norm v) := by
    intro v hv hne
    have hg : Getenv env n = v := by simp [Getenv, hv]
    simp [EnvStringFunc.Call, EnvStringFunc.Impl, functionCall, hreg, hg, hne]
  refine ⟨?_, hunset, hset, ?_, ?_⟩
  · exact ⟨_, by simp [EnvStringFunc.Call, EnvStringFunc.Impl, functionCall, hreg]; rfl⟩
  · intro h hn
    rw [hunset h, Value.StringVal, hn]
  · intro v hv hne hn
    rw [hset v hv hne, Value.StringVal, hn]

/-- C3 amended, at `LOG_LEVEL` registered with default `"info"` and the
variable set to `"debug"`, a string already in normal form. -/
theorem EnvStringFunc_resolves_normalised_witness :
    mapGet gLog.stringEnvs "LOG_LEVEL"
        = some { name := "LOG_LEVEL", desc := "verbosity", d := "info", v := "" } ∧
    nfcSample "debug" = "debug" ∧
    (EnvStringFunc.Call nfcSample gLog (envSingle "LOG_LEVEL" "debug") "LOG_LEVEL").1
        = Except.ok (Value.Str "debug") :=
  ⟨by decide, by decide,
   (EnvStringFunc_resolves_normalised nfcSample gLog (envSingle "LOG_LEVEL" "debug") "LOG_LEVEL"
      { name := "LOG_LEVEL", desc := "verbosity", d := "info", v := "" }
      (by decide)).2.2.2.2 "debug" (by decide) (by decide) (by decide)⟩

/-! ## The registries are never written by a resolver -/

theorem EnvBoolFunc_Call_globals (g : Globals) (env : Environ) (e : String) :
    (EnvBoolFunc.Call g env e).2 = g := by
  unfold EnvBoolFunc.Call EnvBoolFunc.Impl functionCall
  cases mapGet g.boolEnvs e with
  | none => rfl
  | some s => by_cases hv : Getenv env e = "" <;> simp [hv]

theorem EnvIntFunc_Call_globals (g : Globals) (env : Environ) (e : String) :
    (EnvIntFunc.Call g env e).2 = g := by
  unfold EnvIntFunc.Call EnvIntFunc.Impl functionCall
  cases mapGet g.intEnvs e with
  | none => rfl
  | some s =>
    by_cases hv : Getenv env e = ""
    · simp [hv]
    · simp only [if_neg hv]
      cases (ParseInt (Getenv env e)).2 <;> rfl

theorem EnvStringFunc_Call_globals (norm : String → String) (g : Globals) (env : Environ) (e : String) :
    (EnvStringFunc.Call norm g env e).2 = g := by
  unfold EnvStringFunc.Call EnvStringFunc.Impl functionCall
  cases mapGet g.stringEnvs e <;> rfl

/-- C8. A call of any of the three resolvers, whether it succeeds or fails,
leaves the registered names and every record's name, description and default
as they were in all three registries, and a second call of the same resolver
with the same name in the same environment gives the same outcome. -/
theorem resolution_idempotent (norm : String → String) (g : Globals) (env : Environ) (e : String) :
    sameRegistrations g (EnvBoolFunc.Call g env e).2 ∧
    sameRegistrations g (EnvIntFunc.Call g env e).2 ∧
    sameRegistrations g (EnvStringFunc.Call norm g env e).2 ∧
    (EnvBoolFunc.Call (EnvBoolFunc.Call g env e).2 env e).1 = (EnvBoolFunc.Call g env e).1 ∧
    (EnvIntFunc.Call (EnvIntFunc.Call g env e).2 env e).1 = (EnvIntFunc.Call g env e).1 ∧
    (EnvStringFunc.Call norm (EnvStringFunc.Call norm g env e).2 env e).1
        = (EnvStringFunc.Call norm g env e).1 := by
  rw [EnvBoolFunc_Call_globals, EnvIntFunc_Call_globals, EnvStringFunc_Call_globals]
  exact ⟨⟨rfl, rfl, rfl⟩, ⟨rfl, rfl, rfl⟩, ⟨rfl, rfl, rfl⟩, rfl, rfl, rfl⟩

/-- C7, evaluated on the code: after a successful resolution the stored
record still carries the `v` it was registered with, not the value returned.
`FEATURE_X` with default `true` and the variable unset returns `true` and
keeps `v = false`; `RETRY_COUNT` with the variable `"10"` returns `10` and
keeps `v = 0`; `LOG_LEVEL` with the variable `"debug"` returns `"debug"` and
keeps `v = ""`. -/
theorem resolved_value_not_stored :
    ((EnvBoolFunc.Call (gFeature true) envUnset "FEATURE_X").1
        = Except.ok (Value.BoolVal true) ∧
      (mapGet (EnvBoolFunc.Call (gFeature true) envUnset "FEATURE_X").2.boolEnvs
        "FEATURE_X").map (fun s => s.v) = some false) ∧
    ((EnvIntFunc.Call gRetry (envSingle "RETRY_COUNT" "10") "RETRY_COUNT").1
        = Except.ok (Value.NumberIntVal 10) ∧
      (mapGet (EnvIntFunc.Call gRetry (envSingle "RETRY_COUNT" "10") "RETRY_COUNT").2.intEnvs
        "RETRY_COUNT").map (fun s => s.v) = some 0) ∧
    ((EnvStringFunc.Call nfcSample gLog (envSingle "LOG_LEVEL" "debug") "LOG_LEVEL").1
        = Except.ok (Value.Str "debug") ∧
      (mapGet (EnvStringFunc.Call nfcSample gLog (envSingle "LOG_LEVEL" "debug") "LOG_LEVEL").2.stringEnvs
        "LOG_LEVEL").map (fun s => s.v) = some "") := by
  refine ⟨⟨rfl, by decide⟩, ⟨rfl, by decide⟩, ⟨rfl, by decide⟩⟩

/-! ## Failure conditions -/

/-- C4 as stated fails on the integer resolver: `RETRY_COUNT` is registered,
the variable holds `"ten"`, and the call fails all the same. -/
theorem notRegistered_not_only_failure :
    ¬ (Failed (EnvIntFunc.Call gRetry (envSingle "RETRY_COUNT" "ten") "RETRY_COUNT") ↔
        mapGet gRetry.intEnvs "RETRY_COUNT" = none) := by
  intro h
  have hf : Failed (EnvIntFunc.Call gRetry (envSingle "RETRY_COUNT" "ten") "RETRY_COUNT") :=
    ⟨syntaxError "ParseInt" "ten", rfl⟩
  exact absurd (h.mp hf) (by decide)

/-- C4, amended. A resolver called with a name absent from its registry fails
with the message `env: <n> does not register`, whatever the environment
holds. The boolean and the string resolver fail exactly when the name is
absent. The integer resolver fails exactly when the name is absent or the
variable is a non-empty string that `strconv.ParseInt` rejects. -/
theorem resolver_failure_conditions (norm : String → String) (g : Globals) (env : Environ) (n : String) :
    (mapGet g.boolEnvs n = none → (EnvBoolFunc.Call g env n).1
        = Except.error (GoError.Errorf ("env: " ++ n ++ " does not register"))) ∧
    (mapGet g.intEnvs n = none → (EnvIntFunc.Call g env n).1
        = Except.error (GoError.Errorf ("env: " ++ n ++ " does not register"))) ∧
    (mapGet g.stringEnvs n = none → (EnvStringFunc.Call norm g env n).1
        = Except.error (GoError.Errorf ("env: " ++ n ++ " does not register"))) ∧
    (Failed (EnvBoolFunc.Call g env n) ↔ mapGet g.boolEnvs n = none) ∧
    (Failed (EnvStringFunc.Call norm g env n) ↔ mapGet g.stringEnvs n = none) ∧
    (Failed (EnvIntFunc.Call g env n) ↔
        (mapGet g.intEnvs n = none ∨
          (Getenv env n ≠ "" ∧ (ParseInt (Getenv env n)).2 ≠ none))) := by
  refine ⟨?_, ?_, ?_, ?_, ?_, ?_⟩
  · intro h
    simp [EnvBoolFunc.Call, EnvBoolFunc.Impl, functionCall, h, notRegisteredMsg]
  · intro h
    simp [EnvIntFunc.Call, EnvIntFunc.Impl, functionCall, h, notRegisteredMsg]
  · intro h
    simp [EnvStringFunc.Call, EnvStringFunc.Impl, functionCall, h, notRegisteredMsg]
  · cases h : mapGet g.boolEnvs n with
    | none => simp [Failed, EnvBoolFunc.Call, EnvBoolFunc.Impl, functionCall, h]
    | some s =>
      by_cases hv : Getenv env n = "" <;>
        simp [Failed, EnvBoolFunc.Call, EnvBoolFunc.Impl, functionCall, h, hv]
  · cases h : mapGet g.stringEnvs n with
    | none => simp [Failed, EnvStringFunc.Call, EnvStringFunc.Impl, functionCall, h]
    | some s => simp [Failed, EnvStringFunc.Call, EnvStringFunc.Impl, functionCall, h]
  · cases h : mapGet g.intEnvs n with
    | none => simp [Failed, EnvIntFunc.Call, EnvIntFunc.Impl, functionCall, h]
    | some s =>
      by_cases hv : Getenv env n = ""
      · simp [Failed, EnvIntFunc.Call, EnvIntFunc.Impl, functionCall, h, hv]
      · cases hp : (ParseInt (Getenv env n)).2 <;>
          simp [Failed, EnvIntFunc.Call, EnvIntFunc.Impl, functionCall, h, hv, hp]

/-- C4 amended, at the unregistered name `"HOME"` in the freshly initialised
package with the variable set: the integer resolver reports the name. -/
theorem resolver_failure_conditions_witness :
    mapGet Globals.init.intEnvs "HOME" = none ∧
    (EnvIntFunc.Call Globals.init (envSingle "HOME" "/root") "HOME").1
        = Except.error (GoError.Errorf ("env: " ++ "HOME" ++ " does not register")) :=
  ⟨by decide,
   (resolver_failure_conditions nfcSample Globals.init (envSingle "HOME" "/root") "HOME").2.1 (by decide)⟩

/-! ## Registration -/

theorem int64_of_IsInt (x : Int) (h : IsInt x) : int64 x = x := by
  unfold IsInt at h
  unfold int64
  omega

/-- C5. Registering `n` twice in a registry leaves exactly one record under
`n`, carrying the second description and the second default; resolving `n`
with the variable unset returns the second default (as `cty.StringVal` builds
it, for a string); and the records under every other name are what they were
before the two calls. This holds for the bool, the int and the string
registry. -/
theorem reregister_last_writer_wins (norm : String → String) (g : Globals) (env : Environ) (n desc1 desc2 : String)
    (b1 b2 : Bool) (i1 i2 : Int) (s1 s2 : String)
    (hunset : env n = none) (hint : IsInt i2) :
    ((RegisterBoolEnv (RegisterBoolEnv g n desc1 b1) n desc2 b2).boolEnvs.filter
          (fun p => decide (p.1 = n))
        = [(n, { name := n, desc := desc2, d := b2, v := false })] ∧
      (EnvBoolFunc.Call (RegisterBoolEnv (RegisterBoolEnv g n desc1 b1) n desc2 b2) env n).1
        = Except.ok (Value.BoolVal b2) ∧
      ∀ k, k ≠ n →
        mapGet (RegisterBoolEnv (RegisterBoolEnv g n desc1 b1) n desc2 b2).boolEnvs k
          = mapGet g.boolEnvs k) ∧
    ((RegisterIntEnv (RegisterIntEnv g n desc1 i1) n desc2 i2).intEnvs.filter
          (fun p => decide (p.1 = n))
        = [(n, { name := n, desc := desc2, d := i2, v := 0 })] ∧
      (EnvIntFunc.Call (RegisterIntEnv (RegisterIntEnv g n desc1 i1) n desc2 i2) env n).1
        = Except.ok (Value.NumberIntVal i2) ∧
      ∀ k, k ≠ n →
        mapGet (RegisterIntEnv (RegisterIntEnv g n desc1 i1) n desc2 i2).intEnvs k
          = mapGet g.intEnvs k) ∧
    ((RegisterStringEnv (RegisterStringEnv g n desc1 s1) n desc2 s2).stringEnvs.filter
          (fun p => decide (p.1 = n))
        = [(n, { name := n, desc := desc2, d := s2, v := "" })] ∧
      (EnvStringFunc.Call norm (RegisterStringEnv (RegisterStringEnv g n desc1 s1) n desc2 s2)
          env n).1
        = Except.ok (Value.StringVal norm s2) ∧
      ∀ k, k ≠ n →
        mapGet (RegisterStringEnv (RegisterStringEnv g n desc1 s1) n desc2 s2).stringEnvs k
          = mapGet g.stringEnvs k) := by
  have hv : Getenv env n = "" := by simp [Getenv, hunset]
  refine ⟨⟨?_, ?_, ?_⟩, ⟨?_, ?_, ?_⟩, ⟨?_, ?_, ?_⟩⟩
  · exact filter_key_mapSet _ _ _
  · simp [EnvBoolFunc.Call, EnvBoolFunc.Impl, functionCall, RegisterBoolEnv,
      mapGet_mapSet_self, hv]
  · intro k hk
    simp only [RegisterBoolEnv]
    rw [mapGet_mapSet_ne _ _ _ _ hk, mapGet_mapSet_ne _ _ _ _ hk]
  · exact filter_key_mapSet _ _ _
  · simp [EnvIntFunc.Call, EnvIntFunc.Impl, functionCall, RegisterIntEnv,
      mapGet_mapSet_self, hv, int64_of_IsInt i2 hint]
  · intro k hk
    simp only [RegisterIntEnv]
    rw [mapGet_mapSet_ne _ _ _ _ hk, mapGet_mapSet_ne _ _ _ _ hk]
  · exact filter_key_mapSet _ _ _
  · simp [EnvStringFunc.Call, EnvStringFunc.Impl, functionCall, RegisterStringEnv,
      mapGet_mapSet_self, hv]
  · intro k hk
    simp only [RegisterStringEnv]
    rw [mapGet_mapSet_ne _ _ _ _ hk, mapGet_mapSet_ne _ _ _ _ hk]

/-- C5, at `RETRY_COUNT` first registered with default `3` (in `gRetry`, on
top of which both calls are made), then with `7` and then with `9`. -/
theorem reregister_last_writer_wins_witness :
    (envUnset "RETRY_COUNT" = none ∧ IsInt 9) ∧
    (EnvIntFunc.Call
        (RegisterIntEnv (RegisterIntEnv gRetry "RETRY_COUNT" "first" 7) "RETRY_COUNT" "second" 9)
        envUnset "RETRY_COUNT").1 = Except.ok (Value.NumberIntVal 9) :=
  ⟨⟨rfl, by decide⟩,
   (reregister_last_writer_wins nfcSample gRetry envUnset "RETRY_COUNT" "first" "second"
      true false 7 9 "a" "b" rfl (by decide)).2.1.2.1⟩

theorem EnvBoolFunc_Call_congr (g g' : Globals) (env : Environ) (k : String)
    (h : g'.boolEnvs = g.boolEnvs) :
    (EnvBoolFunc.Call g' env k).1 = (EnvBoolFunc.Call g env k).1 := by
  unfold EnvBoolFunc.Call EnvBoolFunc.Impl functionCall
  rw [h]
  cases mapGet g.boolEnvs k with
  | none => rfl
  | some s => by_cases hv : Getenv env k = "" <;> simp [hv]

theorem EnvIntFunc_Call_congr (g g' : Globals) (env : Environ) (k : String)
    (h : g'.intEnvs = g.intEnvs) :
    (EnvIntFunc.Call g' env k).1 = (EnvIntFunc.Call g env k).1 := by
  unfold EnvIntFunc.Call EnvIntFunc.Impl functionCall
  rw [h]
  cases mapGet g.intEnvs k with
  | none => rfl
  | some s =>
    by_cases hv : Getenv env k = ""
    · simp [hv]
    · simp only [if_neg hv]
      cases (ParseInt (Getenv env k)).2 <;> rfl

theorem EnvStringFunc_Call_congr (norm : String → String) (g g' : Globals) (env : Environ) (k : String)
    (h : g'.stringEnvs = g.stringEnvs) :
    (EnvStringFunc.Call norm g' env k).1 = (EnvStringFunc.Call norm g env k).1 := by
  unfold EnvStringFunc.Call EnvStringFunc.Impl functionCall
  rw [h]
  cases mapGet g.stringEnvs k <;> rfl

/-- C9. A register call for one type leaves the other two registries as they
were, and so leaves the outcome of the other two resolvers, for every name
and environment, as it was. The same name registered as a bool and as a
string resolves, with the variable unset, to the bool default through the
boolean resolver and to the string default (as `cty.StringVal` builds it)
through the string resolver. A
name registered as a bool and absent from the int and string registries is
reported as not registered by the integer and the string resolver. -/
theorem registries_independent (norm : String → String) (g : Globals) (env : Environ) (n desc k : String)
    (b : Bool) (i : Int) (s : String) :
    ((RegisterBoolEnv g n desc b).intEnvs = g.intEnvs ∧
      (RegisterBoolEnv g n desc b).stringEnvs = g.stringEnvs ∧
      (RegisterIntEnv g n desc i).boolEnvs = g.boolEnvs ∧
      (RegisterIntEnv g n desc i).stringEnvs = g.stringEnvs ∧
      (RegisterStringEnv g n desc s).boolEnvs = g.boolEnvs ∧
      (RegisterStringEnv g n desc s).intEnvs = g.intEnvs) ∧
    ((EnvIntFunc.Call (RegisterBoolEnv g n desc b) env k).1 = (EnvIntFunc.Call g env k).1 ∧
      (EnvStringFunc.Call norm (RegisterBoolEnv g n desc b) env k).1
        = (EnvStringFunc.Call norm g env k).1 ∧
      (EnvBoolFunc.Call (RegisterIntEnv g n desc i) env k).1 = (EnvBoolFunc.Call g env k).1 ∧
      (EnvStringFunc.Call norm (RegisterIntEnv g n desc i) env k).1
        = (EnvStringFunc.Call norm g env k).1 ∧
      (EnvBoolFunc.Call (RegisterStringEnv g n desc s) env k).1
        = (EnvBoolFunc.Call g env k).1 ∧
      (EnvIntFunc.Call (RegisterStringEnv g n desc s) env k).1
        = (EnvIntFunc.Call g env k).1) ∧
    (env n = none →
      (EnvBoolFunc.Call (RegisterStringEnv (RegisterBoolEnv g n desc b) n desc s) env n).1
        = Except.ok (Value.BoolVal b) ∧
      (EnvStringFunc.Call norm (RegisterStringEnv (RegisterBoolEnv g n desc b) n desc s) env n).1
        = Except.ok (Value.StringVal norm s)) ∧
    (mapGet g.intEnvs n = none →
      (EnvIntFunc.Call (RegisterBoolEnv g n desc b) env n).1
        = Except.error (GoError.Errorf ("env: " ++ n ++ " does not register"))) ∧
    (mapGet g.stringEnvs n = none →
      (EnvStringFunc.Call norm (RegisterBoolEnv g n desc b) env n).1
        = Except.error (GoError.Errorf ("env: " ++ n ++ " does not register"))) := by
  refine ⟨⟨rfl, rfl, rfl, rfl, rfl, rfl⟩,
    ⟨EnvIntFunc_Call_congr _ _ _ _ rfl, EnvStringFunc_Call_congr _ _ _ _ _ rfl,
      EnvBoolFunc_Call_congr _ _ _ _ rfl, EnvStringFunc_Call_congr _ _ _ _ _ rfl,
      EnvBoolFunc_Call_congr _ _ _ _ rfl, EnvIntFunc_Call_congr _ _ _ _ rfl⟩, ?_, ?_, ?_⟩
  · intro hunset
    have hv : Getenv env n = "" := by simp [Getenv, hunset]
    constructor
    · simp [EnvBoolFunc.Call, EnvBoolFunc.Impl, functionCall, RegisterBoolEnv,
        RegisterStringEnv, mapGet_mapSet_self, hv]
    · simp [EnvStringFunc.Call, EnvStringFunc.Impl, functionCall, RegisterBoolEnv,
        RegisterStringEnv, mapGet_mapSet_self, hv]
  · intro h
    simp [EnvIntFunc.Call, EnvIntFunc.Impl, functionCall, RegisterBoolEnv, h, notRegisteredMsg]
  · intro h
    simp [EnvStringFunc.Call, EnvStringFunc.Impl, functionCall, RegisterBoolEnv, h,
      notRegisteredMsg]

/-- C9, at `FEATURE_X` registered as a bool only: the integer resolver does
not know the name. -/
theorem registries_independent_witness :
    mapGet Globals.init.intEnvs "FEATURE_X" = none ∧
    (EnvIntFunc.Call (RegisterBoolEnv Globals.init "FEATURE_X" "feature switch" true)
        (envSingle "FEATURE_X" "1") "FEATURE_X").1
      = Except.error (GoError.Errorf ("env: " ++ "FEATURE_X" ++ " does not register")) :=
  ⟨by decide,
   (registries_independent nfcSample Globals.init (envSingle "FEATURE_X" "1") "FEATURE_X"
      "feature switch" "FEATURE_X" true 0 "").2.2.2.1 (by decide)⟩

/-! ## Resolution: integers -/

/-- C2. For a name registered in the int registry with record `s` whose
default is a Go `int`: with the variable unset or empty the integer resolver
returns the default with no error; with the variable an optional sign
followed by decimal digits denoting an integer in the signed 64-bit range it
returns that integer with no error; with the variable a non-empty string that
is not a base-10 integer literal it fails, and so does not return the
default. -/
theorem EnvIntFunc_resolves (g : Globals) (env : Environ) (n : String) (s : intEnv)
    (hreg : mapGet g.intEnvs n = some s) (hD : IsInt s.d) :
    ((env n = none ∨ env n = some "") →
        (EnvIntFunc.Call g env n).1 = Except.ok (Value.NumberIntVal s.d)) ∧
    (∀ v sign ds, env n = some v → v.data = sign ++ ds → IsSign sign → IsDigits ds →
        IsInt64 (literalValue sign ds) →
        (EnvIntFunc.Call g env n).1 = Except.ok (Value.NumberIntVal (literalValue sign ds))) ∧
    (∀ v, env n = some v → v ≠ "" → ¬ IsDecimalLiteral v →
        Failed (EnvIntFunc.Call g env n) ∧
        (EnvIntFunc.Call g env n).1 ≠ Except.ok (Value.NumberIntVal s.d)) := by
  refine ⟨?_, ?_, ?_⟩
  · intro h
    have hv : Getenv env n = "" := by
      rcases h with h | h <;> simp [Getenv, h]
    simp [EnvIntFunc.Call, EnvIntFunc.Impl, functionCall, hreg, hv, int64_of_IsInt s.d hD]
  · intro v sign ds henv hv hs hd hrange
    have hg : Getenv env n = v := by simp [Getenv, henv]
    have hne : v ≠ "" := (ParseInt_split v sign ds hv hs hd).1
    have hp : ParseInt v = (literalValue sign ds, none) := by
      rw [ParseInt_literal v sign ds hv hs hd, if_pos hrange]
    simp [EnvIntFunc.Call, EnvIntFunc.Impl, functionCall, hreg, hg, hne, hp]
  · intro v henv hne hlit
    have hg : Getenv env n = v := by simp [Getenv, henv]
    cases hp : (ParseInt v).2 with
    | none => exact absurd (ParseInt_ok v hp) hlit
    | some err =>
      have hcall : (EnvIntFunc.Call g env n).1 = Except.error err := by
        simp [EnvIntFunc.Call, EnvIntFunc.Impl, functionCall, hreg, hg, hne, hp]
      refine ⟨⟨err, hcall⟩, ?_⟩
      rw [hcall]
      intro h
      cases h

/-- C2, at `RETRY_COUNT` registered with default `3`: the variable `"10"`
resolves to `10`. -/
theorem EnvIntFunc_resolves_witness :
    (mapGet gRetry.intEnvs "RETRY_COUNT"
        = some { name := "RETRY_COUNT", desc := "retries", d := 3, v := 0 } ∧ IsInt 3) ∧
    (EnvIntFunc.Call gRetry (envSingle "RETRY_COUNT" "10") "RETRY_COUNT").1
        = Except.ok (Value.NumberIntVal (literalValue [] ['1', '0'])) :=
  ⟨⟨by decide, by decide⟩,
   (EnvIntFunc_resolves gRetry (envSingle "RETRY_COUNT" "10") "RETRY_COUNT"
      { name := "RETRY_COUNT", desc := "retries", d := 3, v := 0 }
      (by decide) (by decide)).2.1 "10" [] ['1', '0'] (by decide) (by decide) (by decide)
      (by decide) (by decide)⟩

/-- C10. For a name registered in the int registry, whatever its default, and
the variable a well-formed decimal literal (optional sign, one or more
digits, leading zeros allowed): if the literal's value lies outside the
signed 64-bit range the call fails with a range error, and otherwise it
returns the exact value of the literal. -/
theorem EnvIntFunc_range (g : Globals) (env : Environ) (n : String) (s : intEnv)
    (v : String) (sign ds : List Char)
    (hreg : mapGet g.intEnvs n = some s) (henv : env n = some v)
    (hv : v.data = sign ++ ds) (hs : IsSign sign) (hd : IsDigits ds) :
    (¬ IsInt64 (literalValue sign ds) →
        (EnvIntFunc.Call g env n).1 = Except.error (rangeError "ParseInt" v)) ∧
    (IsInt64 (literalValue sign ds) →
        (EnvIntFunc.Call g env n).1 = Except.ok (Value.NumberIntVal (literalValue sign ds))) := by
  have hg : Getenv env n = v := by simp [Getenv, henv]
  have hne : v ≠ "" := (ParseInt_split v sign ds hv hs hd).1
  constructor
  · intro hrange
    have hp : (ParseInt v).2 = some (rangeError "ParseInt" v) := by
      rw [ParseInt_literal v sign ds hv hs hd, if_neg hrange]
    simp [EnvIntFunc.Call, EnvIntFunc.Impl, functionCall, hreg, hg, hne, hp]
  · intro hrange
    have hp : ParseInt v = (literalValue sign ds, none) := by
      rw [ParseInt_literal v sign ds hv hs hd, if_pos hrange]
    simp [EnvIntFunc.Call, EnvIntFunc.Impl, functionCall, hreg, hg, hne, hp]

/-- C10, at `RETRY_COUNT` registered with default `3`: the variable
`"9223372036854775808"` (2^63) is a well-formed literal outside the range and
gives a range error, and `"+0010"` gives `10`. -/
theorem EnvIntFunc_range_witness :
    (IsSign [] ∧ IsDigits "9223372036854775808".data ∧
      ¬ IsInt64 (literalValue [] "9223372036854775808".data)) ∧
    (EnvIntFunc.Call gRetry (envSingle "RETRY_COUNT" "9223372036854775808") "RETRY_COUNT").1
        = Except.error (rangeError "ParseInt" "9223372036854775808") ∧
    (EnvIntFunc.Call gRetry (envSingle "RETRY_COUNT" "+0010") "RETRY_COUNT").1
        = Except.ok (Value.NumberIntVal (literalValue ['+'] ['0', '0', '1', '0'])) ∧
    literalValue ['+'] ['0', '0', '1', '0'] = 10 :=
  ⟨⟨by decide, by decide, by decide⟩,
   (EnvIntFunc_range gRetry (envSingle "RETRY_COUNT" "9223372036854775808") "RETRY_COUNT"
      { name := "RETRY_COUNT", desc := "retries", d := 3, v := 0 }
      "9223372036854775808" [] "9223372036854775808".data
      (by decide) (by decide) (by decide) (by decide) (by decide)).1 (by decide),
   (EnvIntFunc_range gRetry (envSingle "RETRY_COUNT" "+0010") "RETRY_COUNT"
      { name := "RETRY_COUNT", desc := "retries", d := 3, v := 0 }
      "+0010" ['+'] ['0', '0', '1', '0']
      (by decide) (by decide) (by decide) (by decide) (by decide)).2 (by decide),
   by decide⟩

/-! ## Iteration -/

theorem mapRange_record {V D : Type} (f : V → String × String × D) (m : GoMap V) :
    ∀ log : List (String × String × D),
      mapRange m (fun v acc => acc ++ [f v]) log = log ++ m.map (fun p => f p.2) := by
  induction m with
  | nil => intro log; simp [mapRange]
  | cons p rest ih =>
    intro log
    have := ih (log ++ [f p.2])
    simp only [mapRange, List.foldl_cons, List.map_cons] at this ⊢
    rw [this]
    simp

/-- The map built from `[]` by one `mapSet` per call of a history. -/
theorem build_invariant {V D : Type} (mk : String × String × D → V)
    (ops : List (String × String × D)) :
    ((ops.foldl (fun m o => mapSet m o.1 (mk o)) ([] : GoMap V)).map (fun p => p.1)).Nodup ∧
    (∀ k, k ∈ (ops.foldl (fun m o => mapSet m o.1 (mk o)) ([] : GoMap V)).map (fun p => p.1)
        ↔ k ∈ ops.map (fun o => o.1)) ∧
    (∀ p ∈ ops.foldl (fun m o => mapSet m o.1 (mk o)) ([] : GoMap V),
        ∃ o, (ops.filter (fun o => decide (o.1 = p.1))).getLast? = some o ∧ o.1 = p.1 ∧
          p.2 = mk o) := by
  induction ops using List.reverseRecOn with
  | nil => simp
  | append_singleton init o ih =>
    obtain ⟨hnd, hkeys, hent⟩ := ih
    rw [List.foldl_append]
    simp only [List.foldl_cons, List.foldl_nil]
    generalize List.foldl (fun m o => mapSet m o.1 (mk o)) ([] : GoMap V) init = m at hnd hkeys hent
    have hmem : ∀ p, p ∈ mapSet m o.1 (mk o) ↔ p = (o.1, mk o) ∨ (p ∈ m ∧ p.1 ≠ o.1) := by
      intro p
      simp [mapSet]
    refine ⟨?_, ?_, ?_⟩
    · simp only [mapSet, List.map_cons, List.nodup_cons]
      constructor
      · intro h
        obtain ⟨p, hp, hpk⟩ := List.mem_map.mp h
        have := (List.mem_filter.mp hp).2
        simp at this
        exact this hpk
      · exact (hnd.sublist (List.Sublist.map _ (List.filter_sublist _)))
    · intro k
      simp only [List.mem_map, hmem, List.mem_append, List.mem_singleton, List.map_append,
        List.map_cons, List.map_nil]
      constructor
      · rintro ⟨p, hp | ⟨hp, _⟩, rfl⟩
        · right; rw [hp]
        · left
          exact List.mem_map.mp ((hkeys p.1).mp (List.mem_map.mpr ⟨p, hp, rfl⟩))
      · rintro (⟨x, hx, rfl⟩ | rfl)
        · by_cases hxo : x.1 = o.1
          · exact ⟨(o.1, mk o), Or.inl rfl, hxo.symm⟩
          · obtain ⟨p, hp, hpk⟩ := List.mem_map.mp ((hkeys x.1).mpr (List.mem_map.mpr ⟨x, hx, rfl⟩))
            exact ⟨p, Or.inr ⟨hp, by rw [hpk]; exact hxo⟩, hpk⟩
        · exact ⟨(o.1, mk o), Or.inl rfl, rfl⟩
    · intro p hp
      rcases (hmem p).mp hp with hp | ⟨hp, hne⟩
      · subst hp
        refine ⟨o, ?_, rfl, rfl⟩
        rw [List.filter_append]
        simp
      · obtain ⟨o', ho', hk', hv'⟩ := hent p hp
        refine ⟨o', ?_, hk', hv'⟩
        rw [List.filter_append]
        have : List.filter (fun o => decide (o.1 = p.1)) [o] = [] := by
          simp [List.filter_cons, Ne.symm hne]
        rw [this, List.append_nil]
        exact ho'

theorem visits_match_history {V D : Type} (mk : String × String × D → V)
    (f : V → String × String × D) (hf : ∀ o, f (mk o) = o)
    (ops visits : List (String × String × D))
    (hperm : visits.Perm
      ((ops.foldl (fun m o => mapSet m o.1 (mk o)) ([] : GoMap V)).map (fun p => f p.2))) :
    VisitsMatchHistory ops visits := by
  obtain ⟨hnd, hkeys, hent⟩ := build_invariant mk ops
  generalize List.foldl (fun m o => mapSet m o.1 (mk o)) ([] : GoMap V) ops = m
    at hperm hnd hkeys hent
  have hname : ∀ p ∈ m, (f p.2).1 = p.1 := by
    intro p hp
    obtain ⟨o, _, hk, hv⟩ := hent p hp
    rw [hv, hf, hk]
  have hnames : (m.map (fun p => f p.2)).map (fun x => x.1) = m.map (fun p => p.1) := by
    rw [List.map_map]
    exact List.map_congr_left (fun p hp => hname p hp)
  have hvis : (visits.map (fun x => x.1)).Perm (m.map (fun p => p.1)) := by
    rw [← hnames]
    exact hperm.map _
  refine ⟨?_, ?_, ?_, ?_⟩
  · have h1 : visits.length = (m.map (fun p => p.1)).length := by
      rw [← hvis.length_eq, List.length_map]
    rw [h1]
    apply List.Perm.length_eq
    rw [List.perm_ext_iff_of_nodup hnd (List.nodup_dedup _)]
    intro k
    rw [List.mem_dedup]
    exact hkeys k
  · exact hvis.nodup_iff.mpr hnd
  · intro o ho
    rw [hvis.mem_iff]
    exact (hkeys o.1).mpr (List.mem_map.mpr ⟨o, ho, rfl⟩)
  · intro x hx
    obtain ⟨p, hp, hpx⟩ := List.mem_map.mp (hperm.mem_iff.mp hx)
    obtain ⟨o, ho, hk, hv⟩ := hent p hp
    have hxo : x = o := by rw [← hpx, hv, hf]
    rw [hxo, hk]
    exact ho

theorem runCalls_boolEnvs (calls : List RegCall) :
    ∀ g : Globals, (calls.foldl RegCall.run g).boolEnvs =
      (boolCalls calls).foldl
        (fun m o => mapSet m o.1 ({ name := o.1, desc := o.2.1, d := o.2.2, v := false } : boolEnv))
        g.boolEnvs := by
  induction calls with
  | nil => intro g; rfl
  | cons c rest ih =>
    intro g
    rw [List.foldl_cons, ih]
    cases c <;> rfl

theorem runCalls_intEnvs (calls : List RegCall) :
    ∀ g : Globals, (calls.foldl RegCall.run g).intEnvs =
      (intCalls calls).foldl
        (fun m o => mapSet m o.1 ({ name := o.1, desc := o.2.1, d := o.2.2, v := 0 } : intEnv))
        g.intEnvs := by
  induction calls with
  | nil => intro g; rfl
  | cons c rest ih =>
    intro g
    rw [List.foldl_cons, ih]
    cases c <;> rfl

theorem runCalls_stringEnvs (calls : List RegCall) :
    ∀ g : Globals, (calls.foldl RegCall.run g).stringEnvs =
      (stringCalls calls).foldl
        (fun m o => mapSet m o.1 ({ name := o.1, desc := o.2.1, d := o.2.2, v := "" } : stringEnv))
        g.stringEnvs := by
  induction calls with
  | nil => intro g; rfl
  | cons c rest ih =>
    intro g
    rw [List.foldl_cons, ih]
    cases c <;> rfl

/-- C6. After any sequence of register calls on the freshly initialised
package, and for each of the three types, iteration with a recording visitor
yields, in whatever order the entries are walked, a log with one invocation
per distinct name registered for that type and no more, each invocation
carrying the name, description and default of the last register call of that
type for its name. -/
theorem range_visits_complete (calls : List RegCall)
    (visitsB : List (String × String × Bool)) (visitsI : List (String × String × Int))
    (visitsS : List (String × String × String))
    (hB : visitsB.Perm (RangeBoolEnv (runCalls calls) recordVisit []))
    (hI : visitsI.Perm (RangeIntEnv (runCalls calls) recordVisit []))
    (hS : visitsS.Perm (RangeStringEnv (runCalls calls) recordVisit [])) :
    VisitsMatchHistory (boolCalls calls) visitsB ∧
    VisitsMatchHistory (intCalls calls) visitsI ∧
    VisitsMatchHistory (stringCalls calls) visitsS := by
  refine ⟨?_, ?_, ?_⟩
  · refine visits_match_history
      (fun o => ({ name := o.1, desc := o.2.1, d := o.2.2, v := false } : boolEnv))
      (fun v => (v.name, v.desc, v.d)) (fun _ => rfl) _ _ ?_
    have h := mapRange_record (fun v : boolEnv => (v.name, v.desc, v.d))
      (runCalls calls).boolEnvs []
    simp only [List.nil_append] at h
    unfold RangeBoolEnv recordVisit at hB
    rw [h, runCalls, runCalls_boolEnvs] at hB
    exact hB
  · refine visits_match_history
      (fun o => ({ name := o.1, desc := o.2.1, d := o.2.2, v := 0 } : intEnv))
      (fun v => (v.name, v.desc, v.d)) (fun _ => rfl) _ _ ?_
    have h := mapRange_record (fun v : intEnv => (v.name, v.desc, v.d))
      (runCalls calls).intEnvs []
    simp only [List.nil_append] at h
    unfold RangeIntEnv recordVisit at hI
    rw [h, runCalls, runCalls_intEnvs] at hI
    exact hI
  · refine visits_match_history
      (fun o => ({ name := o.1, desc := o.2.1, d := o.2.2, v := "" } : stringEnv))
      (fun v => (v.name, v.desc, v.d)) (fun _ => rfl) _ _ ?_
    have h := mapRange_record (fun v : stringEnv => (v.name, v.desc, v.d))
      (runCalls calls).stringEnvs []
    simp only [List.nil_append] at h
    unfold RangeStringEnv recordVisit at hS
    rw [h, runCalls, runCalls_stringEnvs] at hS
    exact hS

/-- C6, at the example calls: the int log in the reverse of the walked
order, and what it owes to the history, spelled out. -/
theorem range_visits_complete_witness :
    ([("TIMEOUT", "seconds", (30 : Int)), ("RETRY_COUNT", "retries, second thoughts", 5)].Perm
        (RangeIntEnv (runCalls callsExample) recordVisit [])) ∧
    VisitsMatchHistory (intCalls callsExample)
      [("TIMEOUT", "seconds", (30 : Int)), ("RETRY_COUNT", "retries, second thoughts", 5)] :=
  ⟨by decide,
   (range_visits_complete callsExample
      (RangeBoolEnv (runCalls callsExample) recordVisit [])
      [("TIMEOUT", "seconds", (30 : Int)), ("RETRY_COUNT", "retries, second thoughts", 5)]
      (RangeStringEnv (runCalls callsExample) recordVisit [])
      (List.Perm.refl _) (by decide) (List.Perm.refl _)).2.1⟩

end envfunc
